import Mathlib

/-!
Shallow embedding of `src/index.js` (an Express backend with two routes:
`POST /api/analyze` and `GET /api/results/:doc_id`) and proofs of the
spec's claims about it.

Modelling conventions:
* JS strings are Lean `String`s; positions/lengths count characters.
* The external collaborators (pdf-parse / mammoth extraction, the
  generative-model call, uuidv4) are inputs to the handler, packaged in
  an `Env`: `extract` is the outcome of the extraction call that would
  run for this request's file, `modelCall` maps the prompt actually sent
  to the model's reply (or a thrown error message), and `freshId` is the
  uuid that `uuidv4()` returns for this request.
* Thrown JS errors are `Except.error msg` carrying `error.message`.
* `JSON.parse` is modelled by `parseJson`, a conservative executable
  parser accepting a sub-grammar of JSON (objects, arrays, strings with
  the common escapes, integers, `true`/`false`/`null`); everything it
  accepts, `JSON.parse` accepts with the same value.
* The result store `analysisResults = {}` is a plain JS object, so a
  read `analysisResults[doc_id]` is a prototype-chain lookup: an own
  property if one was assigned, otherwise an `Object.prototype` member
  (`"constructor"`, `"toString"`, ...) — all of which are truthy — and
  `undefined` only for keys outside both.
-/

/-- JSON values as produced by `JSON.parse` (numbers restricted to
integers in the modelled sub-grammar). -/
inductive Json where
  | null : Json
  | bool (b : Bool) : Json
  | num (n : Int) : Json
  | str (s : String) : Json
  | arr (elems : List Json) : Json
  | obj (fields : List (String × Json)) : Json

/-- JS truthiness of a parsed JSON value (`if (result)`). -/
def jsTruthy : Json → Bool
  | .null => false
  | .bool b => b
  | .num n => n != 0
  | .str s => s != ""
  | .arr _ => true
  | .obj _ => true

/-- JS property read `j[k]` on a parsed JSON value: `some v` when the
object has the field (last duplicate wins, as in `JSON.parse`), `none`
for `undefined`. -/
def jsGet (j : Json) (k : String) : Option Json :=
  match j with
  | .obj fields => fields.reverse.lookup k
  | _ => none

/-- A field counts as non-null when it is present and not JSON `null`. -/
def jsNonNull (v : Option Json) : Bool :=
  match v with
  | some .null => false
  | some _ => true
  | none => false

/-! ### A conservative executable model of `JSON.parse` -/

/-- Skip JSON whitespace. -/
def skipWs : List Char → List Char
  | [] => []
  | c :: cs =>
    if c = ' ' ∨ c = '\n' ∨ c = '\t' ∨ c = '\r' then skipWs cs else c :: cs

/-- One-character JSON escapes (`\uXXXX` is outside the modelled
sub-grammar). -/
def unescape (c : Char) : Option Char :=
  if c = '"' then some '"'
  else if c = '\\' then some '\\'
  else if c = '/' then some '/'
  else if c = 'n' then some '\n'
  else if c = 't' then some '\t'
  else if c = 'r' then some '\r'
  else if c = 'b' then some (Char.ofNat 8)
  else if c = 'f' then some (Char.ofNat 12)
  else none

/-- Parse the body of a JSON string after its opening quote; literal
control characters are rejected, as in `JSON.parse`. -/
def parseStringChars : List Char → Option (List Char × List Char)
  | [] => none
  | '"' :: cs => some ([], cs)
  | '\\' :: [] => none
  | '\\' :: e :: cs' =>
    match unescape e with
    | some u => (parseStringChars cs').map (fun p => (u :: p.1, p.2))
    | none => none
  | c :: cs =>
    if c.toNat < 32 then none
    else (parseStringChars cs).map (fun p => (c :: p.1, p.2))

/-- Accumulate decimal digits. -/
def digitsToNat (acc : Nat) : List Char → Nat × List Char
  | [] => (acc, [])
  | c :: cs =>
    if c.isDigit then digitsToNat (acc * 10 + (c.toNat - 48)) cs
    else (acc, c :: cs)

/-- Parse a JSON unsigned integer (leading zeros rejected, as in
`JSON.parse`). -/
def parseNumNat : List Char → Option (Nat × List Char)
  | [] => none
  | '0' :: rest =>
    match rest with
    | d :: _ => if d.isDigit then none else some (0, rest)
    | [] => some (0, [])
  | c :: rest =>
    if c.isDigit then some (digitsToNat (c.toNat - 48) rest) else none

/-- Parse a JSON integer with optional sign. -/
def parseNum (cs : List Char) : Option (Json × List Char) :=
  match cs with
  | '-' :: rest => (parseNumNat rest).map (fun p => (.num (-(p.1 : Int)), p.2))
  | _ => (parseNumNat cs).map (fun p => (.num (p.1 : Int), p.2))

mutual

/-- Parse one JSON value; `fuel` bounds the nesting depth (every
recursive call has consumed at least one character, so
`input length + 1` fuel is always enough). -/
def parseVal (fuel : Nat) (cs : List Char) : Option (Json × List Char) :=
  match fuel with
  | 0 => none
  | f + 1 =>
    match skipWs cs with
    | [] => none
    | c :: rest =>
      if c = '{' then
        match skipWs rest with
        | '}' :: rest' => some (.obj [], rest')
        | _ => parseMembers f rest []
      else if c = '[' then
        match skipWs rest with
        | ']' :: rest' => some (.arr [], rest')
        | _ => parseElems f rest []
      else if c = '"' then
        (parseStringChars rest).map (fun p => (.str (String.mk p.1), p.2))
      else if c = 't' then
        match rest with
        | 'r' :: 'u' :: 'e' :: rest' => some (.bool true, rest')
        | _ => none
      else if c = 'f' then
        match rest with
        | 'a' :: 'l' :: 's' :: 'e' :: rest' => some (.bool false, rest')
        | _ => none
      else if c = 'n' then
        match rest with
        | 'u' :: 'l' :: 'l' :: rest' => some (.null, rest')
        | _ => none
      else parseNum (c :: rest)

/-- Parse the members of a JSON object after its opening brace. -/
def parseMembers (fuel : Nat) (cs : List Char) (acc : List (String × Json)) :
    Option (Json × List Char) :=
  match fuel with
  | 0 => none
  | f + 1 =>
    match skipWs cs with
    | '"' :: rest =>
      match parseStringChars rest with
      | none => none
      | some (key, rest1) =>
        match skipWs rest1 with
        | ':' :: rest2 =>
          match parseVal f rest2 with
          | none => none
          | some (v, rest3) =>
            match skipWs rest3 with
            | ',' :: rest4 => parseMembers f rest4 (acc ++ [(String.mk key, v)])
            | '}' :: rest4 => some (.obj (acc ++ [(String.mk key, v)]), rest4)
            | _ => none
        | _ => none
    | _ => none

/-- Parse the elements of a JSON array after its opening bracket. -/
def parseElems (fuel : Nat) (cs : List Char) (acc : List Json) :
    Option (Json × List Char) :=
  match fuel with
  | 0 => none
  | f + 1 =>
    match parseVal f cs with
    | none => none
    | some (v, rest) =>
      match skipWs rest with
      | ',' :: rest2 => parseElems f rest2 (acc ++ [v])
      | ']' :: rest2 => some (.arr (acc ++ [v]), rest2)
      | _ => none

end

/-- `JSON.parse` on a whole text: one value, then only whitespace. -/
def parseJson (cs : List Char) : Option Json :=
  match parseVal (cs.length + 1) cs with
  | some (j, rest) => if skipWs rest = [] then some j else none
  | none => none

/-! ### The normalizer: `analysisText.match(/\x7b[\s\S]*\x7d/)` then `JSON.parse` -/

/-- The JS regex match `analysisText.match(re)` for the greedy pattern
"one opening brace, then anything, then a closing brace": it matches iff
some closing brace occurs after some opening brace, and the match runs
from the FIRST opening brace to the LAST closing brace of the text. -/
def jsonMatch (cs : List Char) : Option (List Char) :=
  match cs.dropWhile (fun c => c != '{') with
  | [] => none
  | brace :: rest =>
    if (rest.reverse.dropWhile (fun c => c != '}')).isEmpty then none
    else some (brace :: (rest.reverse.dropWhile (fun c => c != '}')).reverse)

/-- Message of the error rethrown by the parse `catch` block
(`src/index.js` line 84). -/
def invalidFormatMsg : String := "The AI model returned an invalid or unexpected format."

/-- Lines 70–85 of `src/index.js`: locate the JSON block and parse it.
Both failure paths — no regex match (the thrown "No valid JSON object
found in the AI response." is caught by the same inner `catch`) and a
`JSON.parse` exception — rethrow a fresh error with the fixed message
`invalidFormatMsg`; the raw text only goes to `console.error`. -/
def normalizeResponse (analysisText : String) : Except String Json :=
  match jsonMatch analysisText.data with
  | some span =>
    match parseJson span with
    | some j => Except.ok j
    | none => Except.error invalidFormatMsg
  | none => Except.error invalidFormatMsg

/-! ### The result store: `const analysisResults = {}` -/

/-- Own properties of the store object, newest assignment first. -/
def Store := List (String × Json)

/-- The store at process start: no own properties. -/
def emptyStore : Store := []

/-- `analysisResults[doc_id] = analysisJSON` (line 88). -/
def storePut (s : Store) (k : String) (v : Json) : Store := (k, v) :: s

/-- Members of `Object.prototype`, all bound to truthy values (functions,
and `Object.prototype` itself for `__proto__`): a plain JS object `{}`
yields these on property reads even though no own property was assigned. -/
def protoProps : List String :=
  ["constructor", "hasOwnProperty", "isPrototypeOf", "propertyIsEnumerable",
   "toLocaleString", "toString", "valueOf", "__defineGetter__",
   "__defineSetter__", "__lookupGetter__", "__lookupSetter__", "__proto__"]

/-- Outcome of the JS property read `analysisResults[doc_id]`. -/
inductive JsLookup where
  | ownVal (j : Json)
  | protoVal (name : String)
  | absent

/-- `analysisResults[doc_id]` (line 102): own property first, otherwise
the prototype chain, otherwise `undefined`. -/
def storeLookup (s : Store) (k : String) : JsLookup :=
  match List.lookup k s with
  | some j => .ownVal j
  | none => if k ∈ protoProps then .protoVal k else .absent

/-! ### The two request handlers -/

/-- An HTTP response body as the handlers produce them. -/
inductive Body where
  | docId (id : String)
  | errorMsg (msg : String)
  | analysis (j : Json)
  | protoValue (name : String)

/-- Status code plus body. -/
structure HttpResponse where
  status : Nat
  body : Body

def noFileMsg : String := "No file uploaded."
def unsupportedMsg : String := "Unsupported file type. Please upload a PDF or DOCX."
def emptyTextMsg : String := "Could not extract text from the document."
def genericFailMsg : String := "Failed to analyze document."
def notFoundMsg : String := "Analysis not found."

def pdfMime : String := "application/pdf"
def docxMime : String :=
  "application/vnd.openxmlformats-officedocument.wordprocessingml.document"

/-- The parts of `req.file` the handler reads. -/
structure UploadedFile where
  mimetype : String

/-- The external collaborators, fixed for one request: the outcome of the
extraction call that would run on this request's file, the model call as
a function of the prompt actually sent, and the uuid `uuidv4()` returns. -/
structure Env where
  extract : Except String String
  modelCall : String → Except String String
  freshId : String

/-- Observable side effects of one `POST /api/analyze` invocation:
whether extraction ran, and the prompt sent to the model (`none` when no
model call was made). -/
structure Effects where
  extractCalled : Bool
  promptSent : Option String

/-- Result of one `POST /api/analyze` invocation: the store afterwards,
the HTTP response, and the observable effects. -/
structure AnalyzeOutcome where
  store : Store
  response : HttpResponse
  effects : Effects

/-- The catch block's `error.message || 'Failed to analyze document.'`
(line 96): a falsy (empty) message falls back to the generic one. -/
def jsMessageOr (msg : String) : String :=
  if msg = "" then genericFailMsg else msg

/-- Static text of the prompt template before the interpolation. -/
def promptPrefix : String :=
  "\n      You are an expert legal assistant specialized in Indian law. \n      Analyze the following legal document text. Provide a clear, simple summary, \n      identify any potentially risky or unfavorable clauses for the user, \n      and explain them in plain English.\n\n      Document Text:\n      ---\n      "

/-- Static text of the prompt template after the interpolation. -/
def promptSuffix : String :=
  " \n      ---\n\n      IMPORTANT: You must provide the analysis in a single, valid JSON object format with three keys: \n      \"summary\", \"risky_clauses\", and \"explanations\". The \"risky_clauses\" must be an array of objects, where each object has \"title\", \"source_excerpt\", \"explanation_en\", and \"risk_level\" (LOW, MEDIUM, or HIGH). Do not wrap the JSON in markdown backticks.\n    "

/-- `documentText.substring(0, 30000)` (line 58): the first 30000
characters, or the whole text when it is shorter. -/
def truncateForPrompt (t : String) : String := String.mk (t.data.take 30000)

/-- The template literal of lines 50–63 applied to the extracted text. -/
def buildPrompt (documentText : String) : String :=
  promptPrefix ++ truncateForPrompt documentText ++ promptSuffix

/-- Lines 33–97 from the point where extraction runs: extraction outcome,
empty-text check, prompt construction, model call, normalization, store
insert. A thrown stage error lands in the outer catch (line 93–97). -/
def afterExtract (s : Store) (env : Env) : AnalyzeOutcome :=
  match env.extract with
  | .error msg => ⟨s, ⟨500, .errorMsg (jsMessageOr msg)⟩, ⟨true, none⟩⟩
  | .ok documentText =>
    if documentText = "" then
      ⟨s, ⟨400, .errorMsg emptyTextMsg⟩, ⟨true, none⟩⟩
    else
      match env.modelCall (buildPrompt documentText) with
      | .error msg =>
        ⟨s, ⟨500, .errorMsg (jsMessageOr msg)⟩,
         ⟨true, some (buildPrompt documentText)⟩⟩
      | .ok analysisText =>
        match normalizeResponse analysisText with
        | .error msg =>
          ⟨s, ⟨500, .errorMsg (jsMessageOr msg)⟩,
           ⟨true, some (buildPrompt documentText)⟩⟩
        | .ok analysisJSON =>
          ⟨storePut s env.freshId analysisJSON,
           ⟨200, .docId env.freshId⟩, ⟨true, some (buildPrompt documentText)⟩⟩

/-- `POST /api/analyze` (lines 27–98): file presence check, mimetype
dispatch (pdf, then docx, then 400), then the pipeline. -/
def handleAnalyze (s : Store) (env : Env) (file : Option UploadedFile) :
    AnalyzeOutcome :=
  match file with
  | none => ⟨s, ⟨400, .errorMsg noFileMsg⟩, ⟨false, none⟩⟩
  | some f =>
    if f.mimetype = pdfMime then afterExtract s env
    else if f.mimetype = docxMime then afterExtract s env
    else ⟨s, ⟨400, .errorMsg unsupportedMsg⟩, ⟨false, none⟩⟩

/-- `GET /api/results/:doc_id` (lines 100–108): read
`analysisResults[doc_id]`, answer 200 with the value when truthy, else
404. The handler performs no assignment, so it returns the store
unchanged. -/
def handleGet (s : Store) (doc_id : String) : Store × HttpResponse :=
  match storeLookup s doc_id with
  | .ownVal j =>
    (s, if jsTruthy j then ⟨200, .analysis j⟩ else ⟨404, .errorMsg notFoundMsg⟩)
  | .protoVal n => (s, ⟨200, .protoValue n⟩)
  | .absent => (s, ⟨404, .errorMsg notFoundMsg⟩)

/-! ### Helper lemmas -/

theorem dropWhile_append_of_all {α : Type} {p : α → Bool} {xs ys : List α}
    (h : ∀ a ∈ xs, p a = true) :
    (xs ++ ys).dropWhile p = ys.dropWhile p := by
  induction xs with
  | nil => rfl
  | cons a as ih =>
    have ha : p a = true := h a (by simp)
    simp only [List.cons_append, List.dropWhile_cons, ha, if_true]
    exact ih (fun b hb => h b (by simp [hb]))

theorem dropWhile_head_false {α : Type} (p : α → Bool) :
    ∀ {l : List α} {c : α} {rest : List α}, l.dropWhile p = c :: rest → p c = false := by
  intro l
  induction l with
  | nil => intro c rest h; simp [List.dropWhile] at h
  | cons a as ih =>
    intro c rest h
    rw [List.dropWhile_cons] at h
    split at h
    · exact ih h
    next hpa =>
      injection h with h1 h2
      subst h1
      simpa using hpa

theorem skipWs_cons_not_ws {c : Char} {cs : List Char}
    (h : ¬(c = ' ' ∨ c = '\n' ∨ c = '\t' ∨ c = '\r')) :
    skipWs (c :: cs) = c :: cs := by
  unfold skipWs
  exact if_neg h

/-- Every object body the parser accepts yields a `Json.obj`. -/
theorem parseMembers_obj (fuel : Nat) :
    ∀ cs acc j rest, parseMembers fuel cs acc = some (j, rest) →
      ∃ fields, j = Json.obj fields := by
  induction fuel with
  | zero => intro cs acc j rest h; simp [parseMembers] at h
  | succ f ih =>
    intro cs acc j rest h
    rw [parseMembers] at h
    split at h
    · split at h
      · exact absurd h (by simp)
      · split at h
        · split at h
          · exact absurd h (by simp)
          · split at h
            · exact ih _ _ _ _ h
            · exact ⟨_, by cases h; rfl⟩
            · exact absurd h (by simp)
        · exact absurd h (by simp)
    · exact absurd h (by simp)

/-- A value parse that starts at an opening brace yields a `Json.obj`. -/
theorem parseVal_brace_obj (fuel : Nat) (tail : List Char) (j : Json)
    (rest : List Char) (h : parseVal fuel ('{' :: tail) = some (j, rest)) :
    ∃ fields, j = Json.obj fields := by
  cases fuel with
  | zero => simp [parseVal] at h
  | succ f =>
    rw [parseVal, skipWs_cons_not_ws (by decide)] at h
    simp only [reduceIte] at h
    split at h
    · simp only [Option.some.injEq, Prod.mk.injEq] at h
      exact ⟨[], h.1.symm⟩
    · exact parseMembers_obj f _ _ _ _ h

/-- The span the regex extracts always starts with an opening brace. -/
theorem jsonMatch_some_brace {cs span : List Char} (h : jsonMatch cs = some span) :
    ∃ tail, span = '{' :: tail := by
  unfold jsonMatch at h
  split at h
  · exact absurd h (by simp)
  · next brace rest heq =>
    split at h
    · exact absurd h (by simp)
    · cases h
      have hb := dropWhile_head_false (fun c => c != '{') heq
      have : brace = '{' := by simpa [bne_eq_false_iff_eq] using hb
      exact ⟨_, by rw [this]⟩

/-- Whatever the normalizer accepts is a JSON object, hence truthy. -/
theorem normalizeResponse_ok_obj {r : String} {j : Json}
    (h : normalizeResponse r = .ok j) : ∃ fields, j = Json.obj fields := by
  unfold normalizeResponse at h
  split at h
  · next span hspan =>
    split at h
    · next j' hparse =>
      cases h
      obtain ⟨tail, htail⟩ := jsonMatch_some_brace hspan
      rw [htail] at hparse
      unfold parseJson at hparse
      split at hparse
      · next p hp =>
        split at hparse
        · cases hparse
          exact parseVal_brace_obj _ _ _ _ hp
        · exact absurd hparse (by simp)
      · exact absurd hparse (by simp)
    · exact absurd h (by simp)
  · exact absurd h (by simp)

/-- Both normalizer failure paths carry the same fixed message. -/
theorem normalizeResponse_error_msg {r m : String}
    (h : normalizeResponse r = .error m) : m = invalidFormatMsg := by
  unfold normalizeResponse at h
  split at h
  · split at h
    · exact absurd h (by simp)
    · cases h; rfl
  · cases h; rfl

/-- A supported mimetype reaches the extraction pipeline. -/
theorem handleAnalyze_supported (s : Store) (env : Env) (f : UploadedFile)
    (h : f.mimetype = pdfMime ∨ f.mimetype = docxMime) :
    handleAnalyze s env (some f) = afterExtract s env := by
  rcases h with h | h <;> simp [handleAnalyze, h, pdfMime, docxMime]

/-- A fresh insert is found again by an own-property lookup. -/
theorem storeLookup_put_self (s : Store) (k : String) (v : Json) :
    storeLookup (storePut s k v) k = .ownVal v := by
  simp [storeLookup, storePut, List.lookup]

/-- Any model reply the normalizer rejects produces the fixed 500
response, independent of the reply text. -/
theorem analyze_normalization_failure_response (s : Store) (env : Env)
    (f : UploadedFile) (t r : String)
    (hm : f.mimetype = pdfMime ∨ f.mimetype = docxMime)
    (he : env.extract = .ok t) (hne : t ≠ "")
    (hc : env.modelCall (buildPrompt t) = .ok r)
    (hf : ∀ j, normalizeResponse r ≠ .ok j) :
    (handleAnalyze s env (some f)).response = ⟨500, .errorMsg invalidFormatMsg⟩ := by
  rw [handleAnalyze_supported s env f hm]
  simp only [afterExtract, he, if_neg hne, hc]
  cases hn : normalizeResponse r with
  | error m =>
    have hmsg := normalizeResponse_error_msg hn
    subst hmsg
    simp [jsMessageOr, invalidFormatMsg]
  | ok j => exact absurd hn (hf j)

/-! ### The claims -/

/-- C9: submitting with no file attached yields the MissingInput-class
400 response with no doc_id; the store is untouched, nothing is
extracted, and no prompt is sent to the model. -/
theorem no_file_rejected_without_effects (s : Store) (env : Env) :
    handleAnalyze s env none =
      ⟨s, ⟨400, .errorMsg noFileMsg⟩, ⟨false, none⟩⟩ ∧
    ∀ d, (handleAnalyze s env none).response.body ≠ .docId d := by
  refine ⟨rfl, fun d h => ?_⟩
  simp [handleAnalyze] at h

/-- C5: `GET /api/results/:doc_id` never mutates the store, so fetching
the same identifier twice in succession returns identical structured
content both times. -/
theorem fetch_twice_identical (s : Store) (id : String) :
    (handleGet s id).1 = s ∧
    (handleGet ((handleGet s id).1) id).2 = (handleGet s id).2 := by
  have h1 : (handleGet s id).1 = s := by
    unfold handleGet
    split <;> simp
  exact ⟨h1, by rw [h1]⟩

/-- C2 is violated by the code: the identifier "constructor" is never
inserted (the store below is empty, with no own properties at all), yet
the fetch handler answers 200 rather than 404, because the plain-object
read `analysisResults["constructor"]` walks the prototype chain and
finds the truthy `Object.prototype.constructor`. -/
theorem fetch_never_inserted_constructor_answers_200 :
    emptyStore = ([] : Store) ∧
    storeLookup emptyStore "constructor" = .protoVal "constructor" ∧
    (handleGet emptyStore "constructor").2.status = 200 ∧
    (handleGet emptyStore "constructor").2.status ≠ 404 := by
  refine ⟨rfl, rfl, rfl, by decide⟩

/-- C3: when the normalizer cannot locate or parse a JSON object in the
model reply, the submit endpoint answers 500 with the fixed generic
message, which does not depend on the raw reply: two runs differing in
their (unparseable) raw model replies produce the same response body. -/
theorem unparseable_reply_fixed_generic_response
    (s₁ s₂ : Store) (env₁ env₂ : Env) (f₁ f₂ : UploadedFile) (t₁ t₂ r₁ r₂ : String)
    (hm₁ : f₁.mimetype = pdfMime ∨ f₁.mimetype = docxMime)
    (hm₂ : f₂.mimetype = pdfMime ∨ f₂.mimetype = docxMime)
    (he₁ : env₁.extract = .ok t₁) (hne₁ : t₁ ≠ "")
    (hc₁ : env₁.modelCall (buildPrompt t₁) = .ok r₁)
    (he₂ : env₂.extract = .ok t₂) (hne₂ : t₂ ≠ "")
    (hc₂ : env₂.modelCall (buildPrompt t₂) = .ok r₂)
    (hf₁ : ∀ j, normalizeResponse r₁ ≠ .ok j)
    (hf₂ : ∀ j, normalizeResponse r₂ ≠ .ok j) :
    (handleAnalyze s₁ env₁ (some f₁)).response = ⟨500, .errorMsg invalidFormatMsg⟩ ∧
    (handleAnalyze s₁ env₁ (some f₁)).response =
      (handleAnalyze s₂ env₂ (some f₂)).response := by
  have h1 := analyze_normalization_failure_response s₁ env₁ f₁ t₁ r₁ hm₁ he₁ hne₁ hc₁ hf₁
  have h2 := analyze_normalization_failure_response s₂ env₂ f₂ t₂ r₂ hm₂ he₂ hne₂ hc₂ hf₂
  exact ⟨h1, h1.trans h2.symm⟩

/-- A model reply with no brace pair at all (NoJsonFound class). -/
def proseReply : String := "I cannot analyze this document."

/-- A model reply whose brace span is not valid JSON (InvalidJsonFormat
class). -/
def garbledReply : String := "\x7binvalid\x7d"

def envProse : Env := ⟨.ok "lease terms", fun _ => .ok proseReply, "w3a"⟩

def envGarbled : Env := ⟨.ok "other document", fun _ => .ok garbledReply, "w3b"⟩

theorem unparseable_reply_fixed_generic_response_witness :
    (handleAnalyze emptyStore envProse (some ⟨pdfMime⟩)).response =
      ⟨500, .errorMsg invalidFormatMsg⟩ ∧
    (handleAnalyze emptyStore envProse (some ⟨pdfMime⟩)).response =
      (handleAnalyze emptyStore envGarbled (some ⟨docxMime⟩)).response := by
  exact unparseable_reply_fixed_generic_response emptyStore emptyStore
    envProse envGarbled ⟨pdfMime⟩ ⟨docxMime⟩ "lease terms" "other document"
    proseReply garbledReply (Or.inl rfl) (Or.inr rfl) rfl (by decide) rfl
    rfl (by decide) rfl
    (fun j h => by
      rw [show normalizeResponse proseReply = .error invalidFormatMsg from rfl] at h
      exact Except.noConfusion h)
    (fun j h => by
      rw [show normalizeResponse garbledReply = .error invalidFormatMsg from rfl] at h
      exact Except.noConfusion h)

/-- C10: every failure thrown inside the try block — extraction failure,
model-call failure, or the normalizer's rethrown parse error — surfaces
as a 500 whose error field is the thrown message verbatim, with the
generic fallback only for an empty message; stage messages are not
sanitized before being returned. -/
theorem thrown_stage_message_returned_verbatim (s : Store) (env : Env)
    (f : UploadedFile) (hm : f.mimetype = pdfMime ∨ f.mimetype = docxMime) :
    (∀ m, env.extract = .error m →
      (handleAnalyze s env (some f)).response =
        ⟨500, .errorMsg (if m = "" then genericFailMsg else m)⟩) ∧
    (∀ t m, env.extract = .ok t → t ≠ "" →
      env.modelCall (buildPrompt t) = .error m →
      (handleAnalyze s env (some f)).response =
        ⟨500, .errorMsg (if m = "" then genericFailMsg else m)⟩) ∧
    (∀ t r m, env.extract = .ok t → t ≠ "" →
      env.modelCall (buildPrompt t) = .ok r → normalizeResponse r = .error m →
      (handleAnalyze s env (some f)).response = ⟨500, .errorMsg m⟩ ∧ m ≠ "") := by
  rw [handleAnalyze_supported s env f hm]
  refine ⟨?_, ?_, ?_⟩
  · intro m hex
    simp [afterExtract, hex, jsMessageOr]
  · intro t m he hne hc
    simp [afterExtract, he, hne, hc, jsMessageOr]
  · intro t r m he hne hc hn
    have hmsg := normalizeResponse_error_msg hn
    subst hmsg
    refine ⟨?_, by simp [invalidFormatMsg]⟩
    simp [afterExtract, he, hne, hc, hn, jsMessageOr, invalidFormatMsg]

def envPdfCrash : Env := ⟨.error "bad XRef entry", fun _ => .ok "\x7b\x7d", "w10"⟩

theorem thrown_stage_message_returned_verbatim_witness :
    (handleAnalyze emptyStore envPdfCrash (some ⟨pdfMime⟩)).response =
      ⟨500, .errorMsg "bad XRef entry"⟩ := by
  have h := (thrown_stage_message_returned_verbatim emptyStore envPdfCrash
    ⟨pdfMime⟩ (Or.inl rfl)).1 "bad XRef entry" rfl
  simpa using h

/-- Pipeline invariant from the extraction stage onward: a doc_id in the
body certifies a fully parsed analysis stored under it; any non-200
outcome leaves the store unchanged and returns no doc_id. -/
theorem afterExtract_spec (s : Store) (env : Env) :
    (∀ d, (afterExtract s env).response.body = .docId d →
      d = env.freshId ∧ (afterExtract s env).response.status = 200 ∧
      ∃ t r j, env.extract = .ok t ∧ env.modelCall (buildPrompt t) = .ok r ∧
        normalizeResponse r = .ok j ∧
        (afterExtract s env).store = storePut s d j ∧
        storeLookup (afterExtract s env).store d = .ownVal j) ∧
    ((afterExtract s env).response.status ≠ 200 →
      (afterExtract s env).store = s ∧
      ∀ d, (afterExtract s env).response.body ≠ .docId d) := by
  cases hex : env.extract with
  | error m =>
    have hout : afterExtract s env =
        ⟨s, ⟨500, .errorMsg (jsMessageOr m)⟩, ⟨true, none⟩⟩ := by
      simp only [afterExtract, hex]
    rw [hout]
    exact ⟨fun d h => by simp at h, fun _ => ⟨rfl, fun d h => by simp at h⟩⟩
  | ok t =>
    by_cases ht : t = ""
    · have hout : afterExtract s env =
          ⟨s, ⟨400, .errorMsg emptyTextMsg⟩, ⟨true, none⟩⟩ := by
        simp [afterExtract, hex, ht]
      rw [hout]
      exact ⟨fun d h => by simp at h, fun _ => ⟨rfl, fun d h => by simp at h⟩⟩
    · cases hc : env.modelCall (buildPrompt t) with
      | error m =>
        have hout : afterExtract s env =
            ⟨s, ⟨500, .errorMsg (jsMessageOr m)⟩,
             ⟨true, some (buildPrompt t)⟩⟩ := by
          simp only [afterExtract, hex, if_neg ht, hc]
        rw [hout]
        exact ⟨fun d h => by simp at h, fun _ => ⟨rfl, fun d h => by simp at h⟩⟩
      | ok r =>
        cases hn : normalizeResponse r with
        | error m =>
          have hout : afterExtract s env =
              ⟨s, ⟨500, .errorMsg (jsMessageOr m)⟩,
               ⟨true, some (buildPrompt t)⟩⟩ := by
            simp only [afterExtract, hex, if_neg ht, hc, hn]
          rw [hout]
          exact ⟨fun d h => by simp at h, fun _ => ⟨rfl, fun d h => by simp at h⟩⟩
        | ok j =>
          have hout : afterExtract s env =
              ⟨storePut s env.freshId j, ⟨200, .docId env.freshId⟩,
               ⟨true, some (buildPrompt t)⟩⟩ := by
            simp only [afterExtract, hex, if_neg ht, hc, hn]
          rw [hout]
          refine ⟨fun d h => ?_, fun h200 => absurd rfl h200⟩
          simp only [Body.docId.injEq] at h
          subst h
          exact ⟨rfl, rfl, t, r, j, rfl, hc, hn, rfl, storeLookup_put_self s _ j⟩

/-- C4: an identifier becomes visible only after its analysis has been
fully parsed and stored: every doc_id the submit endpoint returns already
maps to the complete stored record, and any stage failure leaves the
store unchanged and returns no doc_id. -/
theorem doc_id_visible_only_after_validated_store (s : Store) (env : Env)
    (file : Option UploadedFile) :
    (∀ d, (handleAnalyze s env file).response.body = .docId d →
      d = env.freshId ∧ (handleAnalyze s env file).response.status = 200 ∧
      ∃ t r j, env.extract = .ok t ∧ env.modelCall (buildPrompt t) = .ok r ∧
        normalizeResponse r = .ok j ∧
        (handleAnalyze s env file).store = storePut s d j ∧
        storeLookup (handleAnalyze s env file).store d = .ownVal j) ∧
    ((handleAnalyze s env file).response.status ≠ 200 →
      (handleAnalyze s env file).store = s ∧
      ∀ d, (handleAnalyze s env file).response.body ≠ .docId d) := by
  cases file with
  | none =>
    exact ⟨fun d h => by simp [handleAnalyze] at h,
           fun _ => ⟨rfl, fun d h => by simp [handleAnalyze] at h⟩⟩
  | some f =>
    by_cases hsup : f.mimetype = pdfMime ∨ f.mimetype = docxMime
    · rw [handleAnalyze_supported s env f hsup]
      exact afterExtract_spec s env
    · push_neg at hsup
      have hval : handleAnalyze s env (some f) =
          ⟨s, ⟨400, .errorMsg unsupportedMsg⟩, ⟨false, none⟩⟩ := by
        simp [handleAnalyze, hsup.1, hsup.2]
      rw [hval]
      exact ⟨fun d h => by simp at h, fun _ => ⟨rfl, fun d h => by simp at h⟩⟩

def envQuota : Env := ⟨.ok "rental deed", fun _ => .error "quota exceeded", "w4"⟩

theorem doc_id_visible_only_after_validated_store_witness :
    (handleAnalyze emptyStore envQuota (some ⟨pdfMime⟩)).store = emptyStore := by
  exact ((doc_id_visible_only_after_validated_store emptyStore envQuota
    (some ⟨pdfMime⟩)).2 (by decide)).1

/-- C1 (amended): a successful submission returns the fresh doc_id, and a
subsequent fetch with it returns 200 whose StructuredAnalysis is exactly
the JSON object parsed from the model reply; consequently its summary,
risky_clauses and explanations are non-null exactly when that parsed
object supplies them — the handler does not validate those keys. -/
theorem submit_then_fetch_returns_parsed_analysis (s : Store) (env : Env)
    (f : UploadedFile) (t r : String) (j : Json)
    (hm : f.mimetype = pdfMime ∨ f.mimetype = docxMime)
    (he : env.extract = .ok t) (hne : t ≠ "")
    (hc : env.modelCall (buildPrompt t) = .ok r)
    (hn : normalizeResponse r = .ok j) :
    (handleAnalyze s env (some f)).response = ⟨200, .docId env.freshId⟩ ∧
    (handleGet (handleAnalyze s env (some f)).store env.freshId).2 =
      ⟨200, .analysis j⟩ := by
  rw [handleAnalyze_supported s env f hm]
  have hout : afterExtract s env =
      ⟨storePut s env.freshId j, ⟨200, .docId env.freshId⟩,
       ⟨true, some (buildPrompt t)⟩⟩ := by
    simp only [afterExtract, he, if_neg hne, hc, hn]
  rw [hout]
  obtain ⟨fields, hfj⟩ := normalizeResponse_ok_obj hn
  have htruthy : jsTruthy j = true := by rw [hfj]; rfl
  refine ⟨rfl, ?_⟩
  show (handleGet (storePut s env.freshId j) env.freshId).2 = ⟨200, .analysis j⟩
  unfold handleGet
  rw [storeLookup_put_self]
  simp [htruthy]

/-- A model reply carrying all three top-level keys. -/
def richReply : String :=
  "\x7b\"summary\":\"short summary\",\"risky_clauses\":[],\"explanations\":\"plain\"\x7d"

/-- The parse of `richReply`. -/
def richJson : Json :=
  Json.obj [("summary", .str "short summary"), ("risky_clauses", .arr []),
            ("explanations", .str "plain")]

def envRich : Env := ⟨.ok "sale agreement", fun _ => .ok richReply, "w1"⟩

theorem submit_then_fetch_returns_parsed_analysis_witness :
    (handleAnalyze emptyStore envRich (some ⟨pdfMime⟩)).response =
      ⟨200, .docId "w1"⟩ ∧
    (handleGet (handleAnalyze emptyStore envRich (some ⟨pdfMime⟩)).store "w1").2 =
      ⟨200, .analysis richJson⟩ ∧
    jsNonNull (jsGet richJson "summary") = true ∧
    jsNonNull (jsGet richJson "risky_clauses") = true ∧
    jsNonNull (jsGet richJson "explanations") = true := by
  have h := submit_then_fetch_returns_parsed_analysis emptyStore envRich
    ⟨pdfMime⟩ "sale agreement" richReply richJson (Or.inl rfl) rfl (by decide)
    rfl (by rfl)
  exact ⟨h.1, h.2, rfl, rfl, rfl⟩

/-- The environment of the counterexample run: the model replies with the
empty JSON object. -/
def envEmptyObj : Env := ⟨.ok "loan contract", fun _ => .ok "\x7b\x7d", "c1"⟩

/-- C1 is false as stated: with model reply "\x7b\x7d" (an empty JSON
object, valid JSON) the submission succeeds with a doc_id and the fetch
answers 200, but the returned StructuredAnalysis has absent (null)
summary, risky_clauses and explanations, since the handler never
validates those keys. -/
theorem submit_then_fetch_nonnull_fields_cex :
    (handleAnalyze emptyStore envEmptyObj (some ⟨pdfMime⟩)).response =
      ⟨200, .docId "c1"⟩ ∧
    (handleGet (handleAnalyze emptyStore envEmptyObj (some ⟨pdfMime⟩)).store
      "c1").2 = ⟨200, .analysis (Json.obj [])⟩ ∧
    jsNonNull (jsGet (Json.obj []) "summary") = false ∧
    jsNonNull (jsGet (Json.obj []) "risky_clauses") = false ∧
    jsNonNull (jsGet (Json.obj []) "explanations") = false := by
  refine ⟨rfl, rfl, rfl, rfl, rfl⟩

/-- C6: the prompt embeds exactly the first 30000 characters of the
extracted text — a prefix of the text, unchanged when the text is at or
below the bound, silently cut to length 30000 when longer — and the
pipeline sends the model exactly that prompt. -/
theorem prompt_embeds_bounded_prefix (t : String) (s : Store) (env : Env)
    (f : UploadedFile) :
    buildPrompt t = promptPrefix ++ truncateForPrompt t ++ promptSuffix ∧
    (truncateForPrompt t).data = t.data.take 30000 ∧
    (truncateForPrompt t).data <+: t.data ∧
    (t.data.length ≤ 30000 → truncateForPrompt t = t) ∧
    (30000 < t.data.length → (truncateForPrompt t).data.length = 30000) ∧
    ((f.mimetype = pdfMime ∨ f.mimetype = docxMime) → env.extract = .ok t →
      t ≠ "" →
      (handleAnalyze s env (some f)).effects.promptSent = some (buildPrompt t)) := by
  refine ⟨rfl, rfl, List.take_prefix _ _, ?_, ?_, ?_⟩
  · intro hle
    unfold truncateForPrompt
    rw [List.take_of_length_le hle]
  · intro hgt
    unfold truncateForPrompt
    simp only [List.length_take]
    omega
  · intro hm he hne
    rw [handleAnalyze_supported s env f hm]
    cases hc : env.modelCall (buildPrompt t) with
    | error m =>
      have hout : afterExtract s env =
          ⟨s, ⟨500, .errorMsg (jsMessageOr m)⟩,
           ⟨true, some (buildPrompt t)⟩⟩ := by
        simp only [afterExtract, he, if_neg hne, hc]
      rw [hout]
    | ok r =>
      cases hn : normalizeResponse r with
      | error m =>
        have hout : afterExtract s env =
            ⟨s, ⟨500, .errorMsg (jsMessageOr m)⟩,
             ⟨true, some (buildPrompt t)⟩⟩ := by
          simp only [afterExtract, he, if_neg hne, hc, hn]
        rw [hout]
      | ok j =>
        have hout : afterExtract s env =
            ⟨storePut s env.freshId j, ⟨200, .docId env.freshId⟩,
             ⟨true, some (buildPrompt t)⟩⟩ := by
          simp only [afterExtract, he, if_neg hne, hc, hn]
        rw [hout]

def envShortDoc : Env := ⟨.ok "abc", fun _ => .ok "\x7b\x7d", "w6"⟩

theorem prompt_embeds_bounded_prefix_witness :
    truncateForPrompt "abc" = "abc" ∧
    (handleAnalyze emptyStore envShortDoc (some ⟨docxMime⟩)).effects.promptSent =
      some (buildPrompt "abc") := by
  have h := prompt_embeds_bounded_prefix "abc" emptyStore envShortDoc ⟨docxMime⟩
  exact ⟨h.2.2.2.1 (by decide), h.2.2.2.2.2 (Or.inr rfl) rfl (by decide)⟩

/-- C7: a model reply wrapping a valid JSON object in brace-free prose or
code-fence markers normalizes successfully: the regex extracts exactly
the object span (first opening to last closing brace), the wrapping is
ignored, and the pipeline stores the parse of that span. -/
theorem wrapped_json_reply_normalizes (pre mid post : List Char) (v : Json)
    (hpre : ∀ c ∈ pre, c ≠ '{' ∧ c ≠ '}')
    (hpost : ∀ c ∈ post, c ≠ '{' ∧ c ≠ '}')
    (hv : parseJson ('{' :: (mid ++ ['}'])) = some v) :
    jsonMatch (pre ++ ('{' :: (mid ++ ['}'])) ++ post) =
      some ('{' :: (mid ++ ['}'])) ∧
    normalizeResponse (String.mk (pre ++ ('{' :: (mid ++ ['}'])) ++ post)) =
      .ok v ∧
    ∀ (s : Store) (env : Env) (f : UploadedFile) (t : String),
      (f.mimetype = pdfMime ∨ f.mimetype = docxMime) → env.extract = .ok t →
      t ≠ "" →
      env.modelCall (buildPrompt t) =
        .ok (String.mk (pre ++ ('{' :: (mid ++ ['}'])) ++ post)) →
      (handleAnalyze s env (some f)).store = storePut s env.freshId v := by
  have h1 : (pre ++ ('{' :: (mid ++ ['}'])) ++ post).dropWhile
      (fun c => c != '{') = '{' :: ((mid ++ ['}']) ++ post) := by
    rw [List.append_assoc,
      dropWhile_append_of_all (fun a ha => by simpa using (hpre a ha).1),
      List.cons_append, List.dropWhile_cons_of_neg (by simp)]
  have h2 : ((mid ++ ['}']) ++ post).reverse.dropWhile (fun c => c != '}') =
      '}' :: mid.reverse := by
    rw [List.reverse_append, List.reverse_append,
      dropWhile_append_of_all
        (fun a ha => by simpa using (hpost a (List.mem_reverse.mp ha)).2)]
    simp [List.dropWhile_cons]
  have hmatch : jsonMatch (pre ++ ('{' :: (mid ++ ['}'])) ++ post) =
      some ('{' :: (mid ++ ['}'])) := by
    unfold jsonMatch
    rw [h1]
    simp only [h2]
    simp [List.reverse_cons]
  have hnorm : normalizeResponse
      (String.mk (pre ++ ('{' :: (mid ++ ['}'])) ++ post)) = .ok v := by
    unfold normalizeResponse
    show (match jsonMatch (pre ++ ('{' :: (mid ++ ['}'])) ++ post) with
      | some span =>
        match parseJson span with
        | some j => Except.ok j
        | none => Except.error invalidFormatMsg
      | none => Except.error invalidFormatMsg) = Except.ok v
    rw [hmatch]
    simp only [hv]
  refine ⟨hmatch, hnorm, ?_⟩
  intro s env f t hm he hne hc
  rw [handleAnalyze_supported s env f hm]
  have hout : afterExtract s env =
      ⟨storePut s env.freshId v, ⟨200, .docId env.freshId⟩,
       ⟨true, some (buildPrompt t)⟩⟩ := by
    simp only [afterExtract, he, if_neg hne, hc, hnorm]
  rw [hout]

def fencePre : List Char := "```json\n".data

def fenceMid : List Char := "\"s\":1".data

def fencePost : List Char := "\n```".data

theorem wrapped_json_reply_normalizes_witness :
    jsonMatch (fencePre ++ ('{' :: (fenceMid ++ ['}'])) ++ fencePost) =
      some ('{' :: (fenceMid ++ ['}'])) ∧
    normalizeResponse
        (String.mk (fencePre ++ ('{' :: (fenceMid ++ ['}'])) ++ fencePost)) =
      .ok (Json.obj [("s", Json.num 1)]) := by
  have h := wrapped_json_reply_normalizes fencePre fenceMid fencePost
    (Json.obj [("s", Json.num 1)]) (by decide) (by decide) (by rfl)
  exact ⟨h.1, h.2.1⟩

/-- C8: the EmptyExtraction-class 400 response occurs exactly when a
supported file's extraction succeeds with empty text; in that case no
prompt is sent to the model and nothing is stored, while every non-empty
extracted text reaches the model call. -/
theorem empty_extraction_exactly (s : Store) (env : Env)
    (file : Option UploadedFile) :
    ((handleAnalyze s env file).response = ⟨400, .errorMsg emptyTextMsg⟩ ↔
      (∃ f, file = some f ∧ (f.mimetype = pdfMime ∨ f.mimetype = docxMime)) ∧
        env.extract = .ok "") ∧
    ((handleAnalyze s env file).response = ⟨400, .errorMsg emptyTextMsg⟩ →
      (handleAnalyze s env file).store = s ∧
      (handleAnalyze s env file).effects.promptSent = none) ∧
    (∀ f t, file = some f → (f.mimetype = pdfMime ∨ f.mimetype = docxMime) →
      env.extract = .ok t → t ≠ "" →
      (handleAnalyze s env file).effects.promptSent = some (buildPrompt t)) := by
  cases file with
  | none =>
    refine ⟨?_, ?_, ?_⟩
    · constructor
      · intro h
        simp [handleAnalyze, HttpResponse.mk.injEq, noFileMsg, emptyTextMsg] at h
      · rintro ⟨⟨f, hf, -⟩, -⟩
        exact Option.noConfusion hf
    · intro h
      simp [handleAnalyze, HttpResponse.mk.injEq, noFileMsg, emptyTextMsg] at h
    · intro f t hf
      exact Option.noConfusion hf
  | some f =>
    by_cases hsup : f.mimetype = pdfMime ∨ f.mimetype = docxMime
    · rw [handleAnalyze_supported s env f hsup]
      cases hex : env.extract with
      | error m =>
        have hout : afterExtract s env =
            ⟨s, ⟨500, .errorMsg (jsMessageOr m)⟩, ⟨true, none⟩⟩ := by
          simp only [afterExtract, hex]
        rw [hout]
        refine ⟨?_, fun h => by simp [HttpResponse.mk.injEq] at h, ?_⟩
        · constructor
          · intro h
            simp [HttpResponse.mk.injEq] at h
          · rintro ⟨-, hok⟩
            exact Except.noConfusion hok
        · intro f' t hf' hsup' he hne
          exact Except.noConfusion he
      | ok t =>
        by_cases ht : t = ""
        · subst ht
          have hout : afterExtract s env =
              ⟨s, ⟨400, .errorMsg emptyTextMsg⟩, ⟨true, none⟩⟩ := by
            simp [afterExtract, hex]
          rw [hout]
          refine ⟨?_, fun _ => ⟨rfl, rfl⟩, ?_⟩
          · exact ⟨fun _ => ⟨⟨f, rfl, hsup⟩, rfl⟩, fun _ => rfl⟩
          · intro f' t' hf' hsup' he hne
            injection he with he'
            exact absurd he'.symm hne
        · have hok_ne : (Except.ok t : Except String String) = .ok "" → False := by
            intro h
            injection h with h1
            exact ht h1
          cases hc : env.modelCall (buildPrompt t) with
          | error m =>
            have hout : afterExtract s env =
                ⟨s, ⟨500, .errorMsg (jsMessageOr m)⟩,
                 ⟨true, some (buildPrompt t)⟩⟩ := by
              simp only [afterExtract, hex, if_neg ht, hc]
            rw [hout]
            refine ⟨⟨fun h => by simp [HttpResponse.mk.injEq] at h,
              fun h => absurd h.2 hok_ne⟩,
              fun h => by simp [HttpResponse.mk.injEq] at h, ?_⟩
            intro f' t' hf' hsup' he hne'
            injection he with he1
            rw [← he1]
          | ok r =>
            cases hn : normalizeResponse r with
            | error m =>
              have hout : afterExtract s env =
                  ⟨s, ⟨500, .errorMsg (jsMessageOr m)⟩,
                   ⟨true, some (buildPrompt t)⟩⟩ := by
                simp only [afterExtract, hex, if_neg ht, hc, hn]
              rw [hout]
              refine ⟨⟨fun h => by simp [HttpResponse.mk.injEq] at h,
                fun h => absurd h.2 hok_ne⟩,
                fun h => by simp [HttpResponse.mk.injEq] at h, ?_⟩
              intro f' t' hf' hsup' he hne'
              injection he with he1
              rw [← he1]
            | ok j =>
              have hout : afterExtract s env =
                  ⟨storePut s env.freshId j, ⟨200, .docId env.freshId⟩,
                   ⟨true, some (buildPrompt t)⟩⟩ := by
                simp only [afterExtract, hex, if_neg ht, hc, hn]
              rw [hout]
              refine ⟨⟨fun h => by simp [HttpResponse.mk.injEq] at h,
                fun h => absurd h.2 hok_ne⟩,
                fun h => by simp [HttpResponse.mk.injEq] at h, ?_⟩
              intro f' t' hf' hsup' he hne'
              injection he with he1
              rw [← he1]
    · push_neg at hsup
      have hval : handleAnalyze s env (some f) =
          ⟨s, ⟨400, .errorMsg unsupportedMsg⟩, ⟨false, none⟩⟩ := by
        simp [handleAnalyze, hsup.1, hsup.2]
      rw [hval]
      refine ⟨?_, fun h => by
        simp [HttpResponse.mk.injEq, unsupportedMsg, emptyTextMsg] at h, ?_⟩
      · constructor
        · intro h
          simp [HttpResponse.mk.injEq, unsupportedMsg, emptyTextMsg] at h
        · rintro ⟨⟨f', hf', hsup'⟩, -⟩
          injection hf' with hf''
          subst hf''
          rcases hsup' with h | h
          · exact absurd h hsup.1
          · exact absurd h hsup.2
      · intro f' t hf' hsup' he hne
        injection hf' with hf''
        subst hf''
        rcases hsup' with h | h
        · exact absurd h hsup.1
        · exact absurd h hsup.2

def envEmptyDoc : Env := ⟨.ok "", fun _ => .ok "\x7b\x7d", "w8"⟩

theorem empty_extraction_exactly_witness :
    (handleAnalyze emptyStore envEmptyDoc (some ⟨pdfMime⟩)).response =
      ⟨400, .errorMsg emptyTextMsg⟩ ∧
    (handleAnalyze emptyStore envEmptyDoc (some ⟨pdfMime⟩)).effects.promptSent =
      none := by
  have h := empty_extraction_exactly emptyStore envEmptyDoc (some ⟨pdfMime⟩)
  have h400 := h.1.mpr ⟨⟨⟨pdfMime⟩, rfl, Or.inl rfl⟩, rfl⟩
  exact ⟨h400, (h.2.1 h400).2⟩
